import Mathlib

/-!
# Verification of the group cache refresh coordinator (`src/groupCache.ts`)

A shallow embedding of the `GroupCache` class: a stale-while-revalidate cache
of resource groups keyed by subscription id.  Promises are modelled as an
indexed store of settlement states; the two instance maps
(`updates` — pending refreshes, `current` — cached results) are association
lists keyed by subscription id; the asynchronous completion handlers attached
in `updateGroups` become an explicit `settleRefresh` transition, and the value
a caller's promise resolves to is computed by `resolveReturn` from a symbolic
description of the returned promise (`CallReturn`) and the order in which the
500ms timer and the refresh settle (`RaceOutcome`).
-/

namespace GroupCache

/-- The `Group` interface of `groupCache.ts`: an `id` and a `name`. -/
structure Group where
  id : String
  name : String
deriving DecidableEq, Repr

/-- The fields of `Subscription` the cache reads: `id`, `tenantId`, `isDefault`. -/
structure Subscription where
  id : String
  tenantId : String
  isDefault : Bool
deriving DecidableEq, Repr

/-- Opaque `ServiceClientCredentials` handle. -/
structure Credentials where
  token : String
deriving DecidableEq, Repr

/-- Errors: the `UIError` thrown by `fetchGroups`, and opaque remote failures. -/
inductive Err where
  | uiError (message : String)
  | remoteError (message : String)
deriving DecidableEq, Repr

/-- The settlement state of a promise in the store. -/
inductive PromiseState where
  | pending
  | fulfilled (v : List Group)
  | rejected (e : Err)
deriving DecidableEq, Repr

/-- Lookup in an association list keyed by subscription id
(JS `this.updates[subscription.id]`). -/
def lookupKey : List (String × Nat) → String → Option Nat
  | [], _ => none
  | (k, v) :: m, k2 => if k = k2 then some v else lookupKey m k2

/-- Remove a key (JS `delete this.updates[subscription.id]`). -/
def eraseKey : List (String × Nat) → String → List (String × Nat)
  | [], _ => []
  | (k, v) :: m, k2 => if k = k2 then eraseKey m k2 else (k, v) :: eraseKey m k2

/-- Assign a key (JS `this.updates[subscription.id] = update`); JS object keys
are unique, so assignment replaces any existing entry. -/
def insertKey (m : List (String × Nat)) (k : String) (v : Nat) : List (String × Nat) :=
  (k, v) :: eraseKey m k

/-- Number of entries with the given key. -/
def countKey : List (String × Nat) → String → Nat
  | [], _ => 0
  | (k, _) :: m, k2 => (if k = k2 then 1 else 0) + countKey m k2

/-- Read a promise's state from the store; indices out of range are pending
(they can never be referenced by a reachable state). -/
def promiseValue : List PromiseState → Nat → PromiseState
  | [], _ => PromiseState.pending
  | p :: _, 0 => p
  | _ :: l, n + 1 => promiseValue l n

/-- Settle the promise at an index in the store. -/
def setPromise : List PromiseState → Nat → PromiseState → List PromiseState
  | [], _, _ => []
  | _ :: l, 0, v => v :: l
  | p :: l, n + 1, v => p :: setPromise l n v

/-- The mutable state of a `GroupCache` instance:
`updates` and `current` are the two promise maps, `promises` the promise
store, `defaultSubscription` the tracked default, and `loadInvocations` a
log of every `loadGroups(credentials, subscription)` remote-listing call. -/
structure CacheState where
  updates : List (String × Nat)
  current : List (String × Nat)
  promises : List PromiseState
  defaultSubscription : Option Subscription
  loadInvocations : List (Credentials × String)
deriving DecidableEq, Repr

/-- Fresh instance: both maps empty, no default subscription. -/
def initialState : CacheState :=
  { updates := [], current := [], promises := [], defaultSubscription := none,
    loadInvocations := [] }

/-- Symbolic description of the promise `updateGroups` returns to its caller:
either `Promise.race([setTimeout(500, current), update.catch(() => current)])`
or the bare `update`. -/
inductive CallReturn where
  | raceReturn (updateP : Nat) (currentP : Nat)
  | directReturn (updateP : Nat)
deriving DecidableEq, Repr

/-- The synchronous body of `updateGroups`: reuse or create the pending
refresh (creating one appends a fresh pending promise, registers it in
`updates` and invokes the remote listing), then pick the caller's return
shape from whether a cached result exists. -/
def updateGroups (credentials : Credentials) (st : CacheState)
    (subscription : Subscription) : CacheState × CallReturn :=
  let pair :=
    match lookupKey st.updates subscription.id with
    | some u => (st, u)
    | none =>
      let u := st.promises.length
      ({ st with
          promises := st.promises ++ [PromiseState.pending],
          updates := insertKey st.updates subscription.id u,
          loadInvocations :=
            st.loadInvocations ++ [(credentials, subscription.id)] }, u)
  match lookupKey pair.1.current subscription.id with
  | some c => (pair.1, CallReturn.raceReturn pair.2 c)
  | none => (pair.1, CallReturn.directReturn pair.2)

/-- The completion handlers `update.then(groups => ..., err => ...)`:
on success remove the `updates` entry and store the update as the new
`current`; on failure remove the `updates` entry only (the error is logged). -/
def settleRefresh (st : CacheState) (subscriptionId : String) (u : Nat)
    (outcome : Except Err (List Group)) : CacheState :=
  match outcome with
  | Except.ok groups =>
    { st with
        promises := setPromise st.promises u (PromiseState.fulfilled groups),
        updates := eraseKey st.updates subscriptionId,
        current := insertKey st.current subscriptionId u }
  | Except.error e =>
    { st with
        promises := setPromise st.promises u (PromiseState.rejected e),
        updates := eraseKey st.updates subscriptionId }

/-- How the race between the 500ms timer and the pending refresh plays out:
either the timer fires first, or the refresh settles first with the given
outcome. -/
inductive RaceOutcome where
  | timerFired
  | updateSettled (o : Except Err (List Group))
deriving Repr

/-- What the caller's promise resolves to, given the promise store, the
returned promise's shape and the race outcome; `none` means the caller is
still waiting.  For `raceReturn`, the timer resolves to the `current`
promise and a rejected refresh falls back to `current` via `.catch`;
for `directReturn` there is no timer and the caller adopts the refresh's
own outcome. -/
def resolveReturn (promises : List PromiseState) (r : CallReturn)
    (ro : RaceOutcome) : Option (Except Err (List Group)) :=
  match r with
  | CallReturn.directReturn _ =>
    match ro with
    | RaceOutcome.timerFired => none
    | RaceOutcome.updateSettled o => some o
  | CallReturn.raceReturn _ c =>
    match ro with
    | RaceOutcome.updateSettled (Except.ok w) => some (Except.ok w)
    | RaceOutcome.timerFired | RaceOutcome.updateSettled (Except.error _) =>
      match promiseValue promises c with
      | PromiseState.fulfilled v => some (Except.ok v)
      | PromiseState.rejected e => some (Except.error e)
      | PromiseState.pending => none

/-- Model of `fetchGroups`: throw the not-logged-in `UIError`
when no default subscription is tracked or its tenant's credentials do not
resolve; otherwise delegate to `updateGroups`.  The state is returned
unchanged on the error paths (the method throws before any mutation). -/
def fetchGroups (lookupCredentials : String → Option Credentials)
    (st : CacheState) : CacheState × Except Err CallReturn :=
  match st.defaultSubscription with
  | none => (st, Except.error (Err.uiError "Not logged in, use \"az login\" to do so."))
  | some sub =>
    match lookupCredentials sub.tenantId with
    | none => (st, Except.error (Err.uiError "Not logged in, use \"az login\" to do so."))
    | some credentials =>
      let pair := updateGroups credentials st sub
      (pair.1, Except.ok pair.2)

/-- Model of `onSubscriptionUpdated`: recompute the default subscription, compare ids
(`(this.defaultSubscription && this.defaultSubscription.id) !==
(defaultSubscription && defaultSubscription.id)` — `Option.map` mirrors the
`&&` short-circuit with `undefined` as `none`); if different, store the new
default and, when it exists and credentials resolve, trigger a refresh. -/
def onSubscriptionUpdated (subscriptions : List Subscription)
    (lookupCredentials : String → Option Credentials) (st : CacheState) :
    CacheState :=
  let defaultSubscription := subscriptions.find? (fun s => s.isDefault)
  if st.defaultSubscription.map Subscription.id ≠
      defaultSubscription.map Subscription.id then
    let st1 := { st with defaultSubscription := defaultSubscription }
    match defaultSubscription with
    | some ds =>
      match lookupCredentials ds.tenantId with
      | some credentials => (updateGroups credentials st1 ds).1
      | none => st1
    | none => st1
  else
    st

/-- Runs `n` back-to-back calls to `updateGroups` for the same subscription
with no intervening settlement — the model of `n` concurrent callers. -/
def concurrentCalls (credentials : Credentials) (subscription : Subscription) :
    Nat → CacheState → CacheState
  | 0, st => st
  | n + 1, st =>
    concurrentCalls credentials subscription n
      (updateGroups credentials st subscription).1

/-- One scheduler step of the instance: a caller invokes `updateGroups`, a
registered pending refresh settles, a subscription-change notification
arrives, or a caller invokes `fetchGroups`. -/
inductive Step : CacheState → CacheState → Prop where
  | updateStep (credentials : Credentials) (subscription : Subscription)
      (st : CacheState) :
      Step st (updateGroups credentials st subscription).1
  | settleStep (subscriptionId : String) (u : Nat)
      (outcome : Except Err (List Group)) (st : CacheState)
      (hu : lookupKey st.updates subscriptionId = some u) :
      Step st (settleRefresh st subscriptionId u outcome)
  | subscriptionStep (subscriptions : List Subscription)
      (lookupCredentials : String → Option Credentials) (st : CacheState) :
      Step st (onSubscriptionUpdated subscriptions lookupCredentials st)
  | fetchStep (lookupCredentials : String → Option Credentials)
      (st : CacheState) :
      Step st (fetchGroups lookupCredentials st).1

/-- States reachable from a fresh instance. -/
def Reachable (st : CacheState) : Prop :=
  Relation.ReflTransGen Step initialState st

/-- The maintained invariant: every cached result is a fulfilled promise,
every registered pending refresh is a pending promise inside the store,
distinct subscription ids never share a pending-refresh promise, and each
subscription id has at most one `updates` entry. -/
def Inv (st : CacheState) : Prop :=
  (∀ id p, lookupKey st.current id = some p →
    ∃ v, promiseValue st.promises p = PromiseState.fulfilled v) ∧
  (∀ id u, lookupKey st.updates id = some u →
    promiseValue st.promises u = PromiseState.pending ∧ u < st.promises.length) ∧
  (∀ id1 id2 u, lookupKey st.updates id1 = some u →
    lookupKey st.updates id2 = some u → id1 = id2) ∧
  (∀ id, countKey st.updates id ≤ 1)

/-! ## Association-list and promise-store lemmas -/

theorem lookupKey_eraseKey_self (m : List (String × Nat)) (k : String) :
    lookupKey (eraseKey m k) k = none := by
  induction m with
  | nil => rfl
  | cons e m ih =>
    obtain ⟨k1, v1⟩ := e
    by_cases h : k1 = k
    · simp [eraseKey, h, ih]
    · simp [eraseKey, h, lookupKey, ih]

theorem lookupKey_eraseKey_ne (m : List (String × Nat)) (k k2 : String)
    (h : k ≠ k2) : lookupKey (eraseKey m k) k2 = lookupKey m k2 := by
  induction m with
  | nil => rfl
  | cons e m ih =>
    obtain ⟨k1, v1⟩ := e
    by_cases h1 : k1 = k
    · subst h1
      simp [eraseKey, lookupKey, h, ih]
    · simp [eraseKey, h1, lookupKey, ih]

theorem lookupKey_insertKey_self (m : List (String × Nat)) (k : String) (v : Nat) :
    lookupKey (insertKey m k v) k = some v := by
  simp [insertKey, lookupKey]

theorem lookupKey_insertKey_ne (m : List (String × Nat)) (k k2 : String) (v : Nat)
    (h : k ≠ k2) : lookupKey (insertKey m k v) k2 = lookupKey m k2 := by
  simp [insertKey, lookupKey, h, lookupKey_eraseKey_ne m k k2 h]

theorem countKey_eraseKey_self (m : List (String × Nat)) (k : String) :
    countKey (eraseKey m k) k = 0 := by
  induction m with
  | nil => rfl
  | cons e m ih =>
    obtain ⟨k1, v1⟩ := e
    by_cases h : k1 = k
    · simp [eraseKey, h, ih]
    · simp [eraseKey, h, countKey, ih]

theorem countKey_eraseKey_ne (m : List (String × Nat)) (k k2 : String)
    (h : k ≠ k2) : countKey (eraseKey m k) k2 = countKey m k2 := by
  induction m with
  | nil => rfl
  | cons e m ih =>
    obtain ⟨k1, v1⟩ := e
    by_cases h1 : k1 = k
    · subst h1
      simp [eraseKey, countKey, h, ih]
    · simp [eraseKey, h1, countKey, ih]

theorem countKey_insertKey (m : List (String × Nat)) (k k2 : String) (v : Nat) :
    countKey (insertKey m k v) k2 =
      if k = k2 then 1 else countKey m k2 := by
  by_cases h : k = k2
  · subst h
    simp [insertKey, countKey, countKey_eraseKey_self]
  · simp [insertKey, countKey, h, countKey_eraseKey_ne m k k2 h]

theorem promiseValue_ge_length (l : List PromiseState) (n : Nat)
    (h : l.length ≤ n) : promiseValue l n = PromiseState.pending := by
  induction l generalizing n with
  | nil => rfl
  | cons p l ih =>
    cases n with
    | zero => simp at h
    | succ n =>
      simp only [List.length_cons, Nat.succ_le_succ_iff] at h
      exact ih n h

theorem promiseValue_append_lt (l l2 : List PromiseState) (n : Nat)
    (h : n < l.length) : promiseValue (l ++ l2) n = promiseValue l n := by
  induction l generalizing n with
  | nil => simp at h
  | cons p l ih =>
    cases n with
    | zero => rfl
    | succ n =>
      simp only [List.length_cons, Nat.succ_lt_succ_iff] at h
      exact ih n h

theorem promiseValue_append_self (l : List PromiseState) (x : PromiseState) :
    promiseValue (l ++ [x]) l.length = x := by
  induction l with
  | nil => rfl
  | cons p l ih => exact ih

theorem promiseValue_setPromise_self (l : List PromiseState) (n : Nat)
    (v : PromiseState) (h : n < l.length) :
    promiseValue (setPromise l n v) n = v := by
  induction l generalizing n with
  | nil => simp at h
  | cons p l ih =>
    cases n with
    | zero => rfl
    | succ n =>
      simp only [List.length_cons, Nat.succ_lt_succ_iff] at h
      exact ih n h

theorem promiseValue_setPromise_ne (l : List PromiseState) (n n2 : Nat)
    (v : PromiseState) (h : n ≠ n2) :
    promiseValue (setPromise l n v) n2 = promiseValue l n2 := by
  induction l generalizing n n2 with
  | nil => rfl
  | cons p l ih =>
    cases n with
    | zero =>
      cases n2 with
      | zero => exact absurd rfl h
      | succ n2 => rfl
    | succ n =>
      cases n2 with
      | zero => rfl
      | succ n2 => exact ih n n2 (fun hc => h (congrArg Nat.succ hc))

theorem length_setPromise (l : List PromiseState) (n : Nat) (v : PromiseState) :
    (setPromise l n v).length = l.length := by
  induction l generalizing n with
  | nil => rfl
  | cons p l ih =>
    cases n with
    | zero => rfl
    | succ n => simp [setPromise, ih]

/-! ## Unfolding lemmas for `updateGroups` -/

theorem updateGroups_inflight (credentials : Credentials) (st : CacheState)
    (subscription : Subscription) (u : Nat)
    (hu : lookupKey st.updates subscription.id = some u) :
    updateGroups credentials st subscription =
      (st,
        match lookupKey st.current subscription.id with
        | some c => CallReturn.raceReturn u c
        | none => CallReturn.directReturn u) := by
  unfold updateGroups
  rw [hu]
  dsimp only
  cases lookupKey st.current subscription.id <;> rfl

theorem updateGroups_fresh (credentials : Credentials) (st : CacheState)
    (subscription : Subscription)
    (hu : lookupKey st.updates subscription.id = none) :
    updateGroups credentials st subscription =
      ({ st with
          promises := st.promises ++ [PromiseState.pending],
          updates := insertKey st.updates subscription.id st.promises.length,
          loadInvocations :=
            st.loadInvocations ++ [(credentials, subscription.id)] },
        match lookupKey st.current subscription.id with
        | some c => CallReturn.raceReturn st.promises.length c
        | none => CallReturn.directReturn st.promises.length) := by
  unfold updateGroups
  rw [hu]
  dsimp only
  cases lookupKey st.current subscription.id <;> rfl

/-! ## Invariant preservation -/

theorem inv_initial : Inv initialState := by
  refine ⟨?_, ?_, ?_, ?_⟩ <;> intros <;> simp_all [initialState, lookupKey, countKey]

theorem inv_updateGroups (credentials : Credentials) (st : CacheState)
    (subscription : Subscription) (h : Inv st) :
    Inv (updateGroups credentials st subscription).1 := by
  obtain ⟨hcur, hupd, hinj, hcnt⟩ := h
  cases hu : lookupKey st.updates subscription.id with
  | some u =>
    rw [updateGroups_inflight credentials st subscription u hu]
    exact ⟨hcur, hupd, hinj, hcnt⟩
  | none =>
    rw [updateGroups_fresh credentials st subscription hu]
    refine ⟨?_, ?_, ?_, ?_⟩
    · intro id p hp
      obtain ⟨v, hv⟩ := hcur id p hp
      refine ⟨v, ?_⟩
      have hlt : p < st.promises.length := by
        by_contra hge
        rw [promiseValue_ge_length st.promises p (Nat.le_of_not_lt hge)] at hv
        exact PromiseState.noConfusion hv
      rw [promiseValue_append_lt st.promises [PromiseState.pending] p hlt]
      exact hv
    · intro id u hlook
      by_cases hid : subscription.id = id
      · subst hid
        rw [lookupKey_insertKey_self] at hlook
        cases hlook
        refine ⟨promiseValue_append_self st.promises PromiseState.pending, ?_⟩
        simp
      · rw [lookupKey_insertKey_ne st.updates subscription.id id _ hid] at hlook
        obtain ⟨hpend, hlt⟩ := hupd id u hlook
        refine ⟨?_, ?_⟩
        · rw [promiseValue_append_lt st.promises [PromiseState.pending] u hlt]
          exact hpend
        · simp
          omega
    · intro id1 id2 u h1 h2
      by_cases hi1 : subscription.id = id1 <;> by_cases hi2 : subscription.id = id2
      · exact hi1.symm.trans hi2
      · subst hi1
        rw [lookupKey_insertKey_self] at h1
        rw [lookupKey_insertKey_ne st.updates subscription.id id2 _ hi2] at h2
        cases h1
        obtain ⟨_, hlt⟩ := hupd id2 _ h2
        exfalso
        omega
      · subst hi2
        rw [lookupKey_insertKey_self] at h2
        rw [lookupKey_insertKey_ne st.updates subscription.id id1 _ hi1] at h1
        cases h2
        obtain ⟨_, hlt⟩ := hupd id1 _ h1
        exfalso
        omega
      · rw [lookupKey_insertKey_ne st.updates subscription.id id1 _ hi1] at h1
        rw [lookupKey_insertKey_ne st.updates subscription.id id2 _ hi2] at h2
        exact hinj id1 id2 u h1 h2
    · intro id
      rw [countKey_insertKey]
      by_cases hid : subscription.id = id
      · simp [hid]
      · simp only [hid, if_false]
        exact hcnt id

theorem inv_settleRefresh (st : CacheState) (subscriptionId : String) (u : Nat)
    (outcome : Except Err (List Group)) (h : Inv st)
    (hu : lookupKey st.updates subscriptionId = some u) :
    Inv (settleRefresh st subscriptionId u outcome) := by
  obtain ⟨hcur, hupd, hinj, hcnt⟩ := h
  obtain ⟨hpend, hlt⟩ := hupd subscriptionId u hu
  have hcurne : ∀ id p, lookupKey st.current id = some p → p ≠ u := by
    intro id p hp he
    obtain ⟨v, hv⟩ := hcur id p hp
    rw [he, hpend] at hv
    exact PromiseState.noConfusion hv
  have hupdinj : ∀ id u2, lookupKey (eraseKey st.updates subscriptionId) id = some u2 →
      lookupKey st.updates id = some u2 ∧ u2 ≠ u := by
    intro id u2 hlook
    by_cases hid : subscriptionId = id
    · subst hid
      rw [lookupKey_eraseKey_self] at hlook
      exact Option.noConfusion hlook
    · rw [lookupKey_eraseKey_ne st.updates subscriptionId id hid] at hlook
      refine ⟨hlook, fun he => ?_⟩
      subst he
      exact hid (hinj subscriptionId id _ hu hlook)
  cases outcome with
  | ok groups =>
    dsimp only [settleRefresh]
    refine ⟨?_, ?_, ?_, ?_⟩
    · intro id p hp
      by_cases hid : subscriptionId = id
      · subst hid
        rw [lookupKey_insertKey_self] at hp
        cases hp
        exact ⟨groups, promiseValue_setPromise_self st.promises u _ hlt⟩
      · rw [lookupKey_insertKey_ne st.current subscriptionId id _ hid] at hp
        obtain ⟨v, hv⟩ := hcur id p hp
        refine ⟨v, ?_⟩
        rw [promiseValue_setPromise_ne st.promises u p _ (fun he => hcurne id p hp he.symm)]
        exact hv
    · intro id u2 hlook
      obtain ⟨hold, hne⟩ := hupdinj id u2 hlook
      obtain ⟨hp, hl⟩ := hupd id u2 hold
      refine ⟨?_, ?_⟩
      · rw [promiseValue_setPromise_ne st.promises u u2 _ (fun he => hne he.symm)]
        exact hp
      · rw [length_setPromise]
        exact hl
    · intro id1 id2 u2 h1 h2
      exact hinj id1 id2 u2 (hupdinj id1 u2 h1).1 (hupdinj id2 u2 h2).1
    · intro id
      by_cases hid : subscriptionId = id
      · subst hid
        simp [countKey_eraseKey_self]
      · rw [countKey_eraseKey_ne st.updates subscriptionId id hid]
        exact hcnt id
  | error e =>
    dsimp only [settleRefresh]
    refine ⟨?_, ?_, ?_, ?_⟩
    · intro id p hp
      obtain ⟨v, hv⟩ := hcur id p hp
      refine ⟨v, ?_⟩
      rw [promiseValue_setPromise_ne st.promises u p _ (fun he => hcurne id p hp he.symm)]
      exact hv
    · intro id u2 hlook
      obtain ⟨hold, hne⟩ := hupdinj id u2 hlook
      obtain ⟨hp, hl⟩ := hupd id u2 hold
      refine ⟨?_, ?_⟩
      · rw [promiseValue_setPromise_ne st.promises u u2 _ (fun he => hne he.symm)]
        exact hp
      · rw [length_setPromise]
        exact hl
    · intro id1 id2 u2 h1 h2
      exact hinj id1 id2 u2 (hupdinj id1 u2 h1).1 (hupdinj id2 u2 h2).1
    · intro id
      by_cases hid : subscriptionId = id
      · subst hid
        simp [countKey_eraseKey_self]
      · rw [countKey_eraseKey_ne st.updates subscriptionId id hid]
        exact hcnt id

theorem fetchGroups_noDefault (lookupCredentials : String → Option Credentials)
    (st : CacheState) (hd : st.defaultSubscription = none) :
    fetchGroups lookupCredentials st =
      (st, Except.error (Err.uiError "Not logged in, use \"az login\" to do so.")) := by
  unfold fetchGroups
  rw [hd]

theorem fetchGroups_noCredentials (lookupCredentials : String → Option Credentials)
    (st : CacheState) (sub : Subscription)
    (hd : st.defaultSubscription = some sub)
    (hc : lookupCredentials sub.tenantId = none) :
    fetchGroups lookupCredentials st =
      (st, Except.error (Err.uiError "Not logged in, use \"az login\" to do so.")) := by
  unfold fetchGroups
  rw [hd]
  dsimp only
  rw [hc]

theorem fetchGroups_delegates (lookupCredentials : String → Option Credentials)
    (st : CacheState) (sub : Subscription) (credentials : Credentials)
    (hd : st.defaultSubscription = some sub)
    (hc : lookupCredentials sub.tenantId = some credentials) :
    fetchGroups lookupCredentials st =
      ((updateGroups credentials st sub).1,
        Except.ok (updateGroups credentials st sub).2) := by
  unfold fetchGroups
  rw [hd]
  dsimp only
  rw [hc]

theorem inv_fetchGroups (lookupCredentials : String → Option Credentials)
    (st : CacheState) (h : Inv st) : Inv (fetchGroups lookupCredentials st).1 := by
  cases hd : st.defaultSubscription with
  | none =>
    rw [fetchGroups_noDefault lookupCredentials st hd]
    exact h
  | some sub =>
    cases hc : lookupCredentials sub.tenantId with
    | none =>
      rw [fetchGroups_noCredentials lookupCredentials st sub hd hc]
      exact h
    | some credentials =>
      rw [fetchGroups_delegates lookupCredentials st sub credentials hd hc]
      exact inv_updateGroups credentials st sub h

theorem inv_onSubscriptionUpdated (subscriptions : List Subscription)
    (lookupCredentials : String → Option Credentials) (st : CacheState)
    (h : Inv st) : Inv (onSubscriptionUpdated subscriptions lookupCredentials st) := by
  unfold onSubscriptionUpdated
  by_cases hne : st.defaultSubscription.map Subscription.id ≠
      (subscriptions.find? (fun s => s.isDefault)).map Subscription.id
  · rw [if_pos hne]
    cases subscriptions.find? (fun s => s.isDefault) with
    | none => exact h
    | some ds =>
      dsimp only
      cases lookupCredentials ds.tenantId with
      | none => exact h
      | some credentials =>
        exact inv_updateGroups credentials
          { st with defaultSubscription := some ds } ds h
  · rw [if_neg hne]
    exact h

theorem inv_step (st st' : CacheState) (h : Inv st) (hs : Step st st') : Inv st' := by
  cases hs with
  | updateStep credentials subscription st => exact inv_updateGroups credentials st subscription h
  | settleStep subscriptionId u outcome st hu => exact inv_settleRefresh st subscriptionId u outcome h hu
  | subscriptionStep subscriptions lookupCredentials st =>
    exact inv_onSubscriptionUpdated subscriptions lookupCredentials st h
  | fetchStep lookupCredentials st => exact inv_fetchGroups lookupCredentials st h

theorem inv_reachable (st : CacheState) (h : Reachable st) : Inv st := by
  induction h with
  | refl => exact inv_initial
  | tail h1 hstep ih => exact inv_step _ _ ih hstep

/-! ## Helper lemmas about single calls -/

theorem updateGroups_fst_inflight (credentials : Credentials) (st : CacheState)
    (subscription : Subscription) (u : Nat)
    (hu : lookupKey st.updates subscription.id = some u) :
    (updateGroups credentials st subscription).1 = st := by
  rw [updateGroups_inflight credentials st subscription u hu]

theorem concurrentCalls_inflight (credentials : Credentials)
    (subscription : Subscription) (st : CacheState) (u : Nat)
    (hu : lookupKey st.updates subscription.id = some u) (n : Nat) :
    concurrentCalls credentials subscription n st = st := by
  induction n with
  | zero => rfl
  | succ n ih =>
    show concurrentCalls credentials subscription n
      (updateGroups credentials st subscription).1 = st
    rw [updateGroups_fst_inflight credentials st subscription u hu]
    exact ih

theorem updateGroups_ret_of_current (credentials : Credentials) (st : CacheState)
    (subscription : Subscription) (c : Nat)
    (hc : lookupKey st.current subscription.id = some c) :
    ∃ u, (updateGroups credentials st subscription).2 = CallReturn.raceReturn u c := by
  cases hu : lookupKey st.updates subscription.id with
  | some u =>
    rw [updateGroups_inflight credentials st subscription u hu]
    rw [hc]
    exact ⟨u, rfl⟩
  | none =>
    rw [updateGroups_fresh credentials st subscription hu]
    rw [hc]
    exact ⟨st.promises.length, rfl⟩

theorem updateGroups_ret_of_no_current (credentials : Credentials) (st : CacheState)
    (subscription : Subscription)
    (hc : lookupKey st.current subscription.id = none) :
    ∃ u, (updateGroups credentials st subscription).2 = CallReturn.directReturn u := by
  cases hu : lookupKey st.updates subscription.id with
  | some u =>
    rw [updateGroups_inflight credentials st subscription u hu]
    rw [hc]
    exact ⟨u, rfl⟩
  | none =>
    rw [updateGroups_fresh credentials st subscription hu]
    rw [hc]
    exact ⟨st.promises.length, rfl⟩

theorem promiseValue_fulfilled_updateGroups (credentials : Credentials)
    (st : CacheState) (subscription : Subscription) (c : Nat) (v : List Group)
    (hv : promiseValue st.promises c = PromiseState.fulfilled v) :
    promiseValue (updateGroups credentials st subscription).1.promises c =
      PromiseState.fulfilled v := by
  cases hu : lookupKey st.updates subscription.id with
  | some u =>
    rw [updateGroups_fst_inflight credentials st subscription u hu]
    exact hv
  | none =>
    rw [updateGroups_fresh credentials st subscription hu]
    have hlt : c < st.promises.length := by
      by_contra hge
      rw [promiseValue_ge_length st.promises c (Nat.le_of_not_lt hge)] at hv
      exact PromiseState.noConfusion hv
    dsimp only
    rw [promiseValue_append_lt st.promises [PromiseState.pending] c hlt]
    exact hv

theorem resolveReturn_race_fulfilled (ps : List PromiseState) (u c : Nat)
    (v : List Group) (hv : promiseValue ps c = PromiseState.fulfilled v) :
    resolveReturn ps (CallReturn.raceReturn u c) RaceOutcome.timerFired =
      some (Except.ok v) ∧
    (∀ e, resolveReturn ps (CallReturn.raceReturn u c)
      (RaceOutcome.updateSettled (Except.error e)) = some (Except.ok v)) ∧
    (∀ w, resolveReturn ps (CallReturn.raceReturn u c)
      (RaceOutcome.updateSettled (Except.ok w)) = some (Except.ok w)) ∧
    (∀ ro e2, resolveReturn ps (CallReturn.raceReturn u c) ro ≠
      some (Except.error e2)) := by
  refine ⟨?_, ?_, ?_, ?_⟩
  · simp [resolveReturn, hv]
  · intro e
    simp [resolveReturn, hv]
  · intro w
    simp [resolveReturn]
  · intro ro e2
    cases ro with
    | timerFired => simp [resolveReturn, hv]
    | updateSettled o =>
      cases o with
      | ok w => simp [resolveReturn]
      | error e => simp [resolveReturn, hv]

theorem updateGroups_fst_defaultSubscription (credentials : Credentials)
    (st : CacheState) (subscription : Subscription) :
    (updateGroups credentials st subscription).1.defaultSubscription =
      st.defaultSubscription := by
  cases hu : lookupKey st.updates subscription.id with
  | some u => rw [updateGroups_fst_inflight credentials st subscription u hu]
  | none => rw [updateGroups_fresh credentials st subscription hu]

/-! ## Concrete states used by witnesses -/

/-- A demonstration subscription. -/
def demoSubscription : Subscription := ⟨"s1", "t1", true⟩

/-- Demonstration credentials. -/
def demoCredentials : Credentials := ⟨"c"⟩

/-- The state after a first `updateGroups` call on a fresh instance: one
pending refresh for `"s1"`. -/
def demoState1 : CacheState :=
  (updateGroups demoCredentials initialState demoSubscription).1

/-- The state after that refresh succeeds: a cached result for `"s1"`. -/
def demoState2 : CacheState :=
  settleRefresh demoState1 "s1" 0 (Except.ok [⟨"g1", "group-one"⟩])

theorem demoState2_reachable : Reachable demoState2 :=
  Relation.ReflTransGen.tail
    (Relation.ReflTransGen.tail Relation.ReflTransGen.refl
      (Step.updateStep demoCredentials demoSubscription initialState))
    (Step.settleStep "s1" 0 (Except.ok [⟨"g1", "group-one"⟩]) demoState1 rfl)

/-! ## The claims -/

/-- C1: at most one `PendingRefresh` entry exists per subscription id in any
reachable state; a call to `updateGroups` that finds an existing entry for
`subscription.id` reuses it, changing nothing (in particular it does not
invoke the remote listing), so `n` concurrent calls for the same subscription
id produce exactly one remote listing invocation in total. -/
theorem dedup_single_remote_invocation (credentials : Credentials)
    (subscription : Subscription) (st : CacheState) (h : Reachable st) (n : Nat) :
    countKey st.updates subscription.id ≤ 1 ∧
    (∀ u, lookupKey st.updates subscription.id = some u →
      concurrentCalls credentials subscription n st = st) ∧
    (lookupKey st.updates subscription.id = none →
      (concurrentCalls credentials subscription (n + 1) st).loadInvocations =
        st.loadInvocations ++ [(credentials, subscription.id)]) := by
  obtain ⟨-, -, -, hcnt⟩ := inv_reachable st h
  refine ⟨hcnt subscription.id, ?_, ?_⟩
  · intro u hu
    exact concurrentCalls_inflight credentials subscription st u hu n
  · intro hu
    show (concurrentCalls credentials subscription n
      (updateGroups credentials st subscription).1).loadInvocations = _
    rw [updateGroups_fresh credentials st subscription hu]
    rw [concurrentCalls_inflight credentials subscription _ st.promises.length
      (by dsimp only; exact lookupKey_insertKey_self st.updates subscription.id _) n]

theorem dedup_single_remote_invocation_witness :
    (concurrentCalls demoCredentials demoSubscription 3 initialState).loadInvocations =
      initialState.loadInvocations ++ [(demoCredentials, demoSubscription.id)] :=
  (dedup_single_remote_invocation demoCredentials demoSubscription initialState
    Relation.ReflTransGen.refl 2).2.2 rfl

/-- C2: a refresh failure propagates to the caller of `updateGroups` exactly
when no cached result exists for the subscription id: with no cached entry
the caller's promise rejects with the refresh's error, while with a cached
entry holding `v` the caller resolves to `v` and no race outcome can make
the call reject. -/
theorem failure_propagates_iff_no_cache (credentials : Credentials)
    (subscription : Subscription) (st : CacheState) (e : Err) :
    (lookupKey st.current subscription.id = none →
      resolveReturn (updateGroups credentials st subscription).1.promises
        (updateGroups credentials st subscription).2
        (RaceOutcome.updateSettled (Except.error e)) = some (Except.error e)) ∧
    (∀ c v, lookupKey st.current subscription.id = some c →
      promiseValue st.promises c = PromiseState.fulfilled v →
      resolveReturn (updateGroups credentials st subscription).1.promises
        (updateGroups credentials st subscription).2
        (RaceOutcome.updateSettled (Except.error e)) = some (Except.ok v) ∧
      ∀ ro e2, resolveReturn (updateGroups credentials st subscription).1.promises
        (updateGroups credentials st subscription).2 ro ≠
        some (Except.error e2)) := by
  refine ⟨?_, ?_⟩
  · intro hc
    obtain ⟨u, hr⟩ := updateGroups_ret_of_no_current credentials st subscription hc
    rw [hr]
    rfl
  · intro c v hc hv
    obtain ⟨u, hr⟩ := updateGroups_ret_of_current credentials st subscription c hc
    have hv2 := promiseValue_fulfilled_updateGroups credentials st subscription c v hv
    obtain ⟨-, herr, -, hnever⟩ := resolveReturn_race_fulfilled
      (updateGroups credentials st subscription).1.promises u c v hv2
    rw [hr]
    exact ⟨herr e, hnever⟩

theorem failure_propagates_iff_no_cache_witness :
    resolveReturn (updateGroups demoCredentials initialState demoSubscription).1.promises
      (updateGroups demoCredentials initialState demoSubscription).2
      (RaceOutcome.updateSettled (Except.error (Err.remoteError "boom"))) =
      some (Except.error (Err.remoteError "boom")) :=
  (failure_propagates_iff_no_cache demoCredentials demoSubscription initialState
    (Err.remoteError "boom")).1 rfl

/-- C3: when a cached result holding `v` exists for the subscription id and
the pending refresh has not settled when the 500ms timer fires, the call
resolves at the timer to the stale cached value `v` instead of waiting for
the refresh. -/
theorem stale_serves_fast (credentials : Credentials) (subscription : Subscription)
    (st : CacheState) (c : Nat) (v : List Group)
    (hc : lookupKey st.current subscription.id = some c)
    (hv : promiseValue st.promises c = PromiseState.fulfilled v) :
    resolveReturn (updateGroups credentials st subscription).1.promises
      (updateGroups credentials st subscription).2 RaceOutcome.timerFired =
      some (Except.ok v) := by
  obtain ⟨u, hr⟩ := updateGroups_ret_of_current credentials st subscription c hc
  have hv2 := promiseValue_fulfilled_updateGroups credentials st subscription c v hv
  rw [hr]
  exact (resolveReturn_race_fulfilled
    (updateGroups credentials st subscription).1.promises u c v hv2).1

theorem stale_serves_fast_witness :
    resolveReturn (updateGroups demoCredentials demoState2 demoSubscription).1.promises
      (updateGroups demoCredentials demoState2 demoSubscription).2
      RaceOutcome.timerFired = some (Except.ok [⟨"g1", "group-one"⟩]) :=
  stale_serves_fast demoCredentials demoSubscription demoState2 0
    [⟨"g1", "group-one"⟩] rfl rfl

/-- C4: when a cached result exists for the subscription id and the pending
refresh fulfills with `w` before the 500ms timer fires, the call resolves to
the new result `w`, not the stale cached value. -/
theorem fresh_serves_faster (credentials : Credentials) (subscription : Subscription)
    (st : CacheState) (c : Nat) (w : List Group)
    (hc : lookupKey st.current subscription.id = some c) :
    resolveReturn (updateGroups credentials st subscription).1.promises
      (updateGroups credentials st subscription).2
      (RaceOutcome.updateSettled (Except.ok w)) = some (Except.ok w) := by
  obtain ⟨u, hr⟩ := updateGroups_ret_of_current credentials st subscription c hc
  rw [hr]
  rfl

theorem fresh_serves_faster_witness :
    resolveReturn (updateGroups demoCredentials demoState2 demoSubscription).1.promises
      (updateGroups demoCredentials demoState2 demoSubscription).2
      (RaceOutcome.updateSettled (Except.ok [⟨"g2", "group-two"⟩])) =
      some (Except.ok [⟨"g2", "group-two"⟩]) :=
  fresh_serves_faster demoCredentials demoSubscription demoState2 0
    [⟨"g2", "group-two"⟩] rfl

/-- C5: when no cached result exists for the subscription id, `updateGroups`
returns the pending refresh directly: the timer firing resolves nothing, and
the caller adopts whatever outcome (success or failure) the refresh settles
with. -/
theorem first_fetch_blocks (credentials : Credentials) (subscription : Subscription)
    (st : CacheState) (hc : lookupKey st.current subscription.id = none) :
    ∃ u, (updateGroups credentials st subscription).2 = CallReturn.directReturn u ∧
      resolveReturn (updateGroups credentials st subscription).1.promises
        (updateGroups credentials st subscription).2 RaceOutcome.timerFired = none ∧
      ∀ o, resolveReturn (updateGroups credentials st subscription).1.promises
        (updateGroups credentials st subscription).2
        (RaceOutcome.updateSettled o) = some o := by
  obtain ⟨u, hr⟩ := updateGroups_ret_of_no_current credentials st subscription hc
  refine ⟨u, hr, ?_, ?_⟩
  · rw [hr]
    rfl
  · intro o
    rw [hr]
    rfl

theorem first_fetch_blocks_witness :
    ∃ u, (updateGroups demoCredentials initialState demoSubscription).2 =
        CallReturn.directReturn u ∧
      resolveReturn (updateGroups demoCredentials initialState demoSubscription).1.promises
        (updateGroups demoCredentials initialState demoSubscription).2
        RaceOutcome.timerFired = none ∧
      ∀ o, resolveReturn (updateGroups demoCredentials initialState demoSubscription).1.promises
        (updateGroups demoCredentials initialState demoSubscription).2
        (RaceOutcome.updateSettled o) = some o :=
  first_fetch_blocks demoCredentials demoSubscription initialState rfl

/-- C6: when a refresh for a subscription id fails, the completion handler
removes that id's `PendingRefresh` entry and nothing else: other pending
entries, the whole `CachedResult` map and the invocation log are untouched
(so a cached result is only ever overwritten by a successful refresh), and
a subsequent `updateGroups` call for that id invokes the remote listing
afresh because the failed entry is gone. -/
theorem failed_refresh_frame (st : CacheState) (subscriptionId : String) (u : Nat)
    (e : Err) (credentials : Credentials) (subscription : Subscription)
    (hs : subscription.id = subscriptionId) :
    (settleRefresh st subscriptionId u (Except.error e)).current = st.current ∧
    lookupKey (settleRefresh st subscriptionId u (Except.error e)).updates
      subscriptionId = none ∧
    (∀ id2, id2 ≠ subscriptionId →
      lookupKey (settleRefresh st subscriptionId u (Except.error e)).updates id2 =
        lookupKey st.updates id2) ∧
    (settleRefresh st subscriptionId u (Except.error e)).loadInvocations =
      st.loadInvocations ∧
    (settleRefresh st subscriptionId u (Except.error e)).defaultSubscription =
      st.defaultSubscription ∧
    (updateGroups credentials (settleRefresh st subscriptionId u (Except.error e))
        subscription).1.loadInvocations =
      st.loadInvocations ++ [(credentials, subscriptionId)] := by
  refine ⟨rfl, ?_, ?_, rfl, rfl, ?_⟩
  · exact lookupKey_eraseKey_self st.updates subscriptionId
  · intro id2 hne
    exact lookupKey_eraseKey_ne st.updates subscriptionId id2 (fun h2 => hne h2.symm)
  · rw [updateGroups_fresh credentials
      (settleRefresh st subscriptionId u (Except.error e)) subscription
      (by rw [hs]; exact lookupKey_eraseKey_self st.updates subscriptionId)]
    rw [hs]
    dsimp only [settleRefresh]

theorem failed_refresh_frame_witness :
    (settleRefresh demoState1 "s1" 0 (Except.error (Err.remoteError "boom"))).current =
      demoState1.current ∧
    lookupKey (settleRefresh demoState1 "s1" 0
      (Except.error (Err.remoteError "boom"))).updates "s1" = none ∧
    (∀ id2, id2 ≠ "s1" →
      lookupKey (settleRefresh demoState1 "s1" 0
        (Except.error (Err.remoteError "boom"))).updates id2 =
        lookupKey demoState1.updates id2) ∧
    (settleRefresh demoState1 "s1" 0
      (Except.error (Err.remoteError "boom"))).loadInvocations =
      demoState1.loadInvocations ∧
    (settleRefresh demoState1 "s1" 0
      (Except.error (Err.remoteError "boom"))).defaultSubscription =
      demoState1.defaultSubscription ∧
    (updateGroups demoCredentials
        (settleRefresh demoState1 "s1" 0 (Except.error (Err.remoteError "boom")))
        demoSubscription).1.loadInvocations =
      demoState1.loadInvocations ++ [(demoCredentials, "s1")] :=
  failed_refresh_frame demoState1 "s1" 0 (Err.remoteError "boom")
    demoCredentials demoSubscription rfl

/-- C7: `fetchGroups` rejects with the "not logged in" `UIError` and leaves
the state untouched (no refresh started) when no default subscription is
tracked or when credential lookup for the tracked default's tenant yields
nothing; otherwise it delegates to `updateGroups` with the resolved
credentials and the tracked subscription and returns its result. -/
theorem fetchGroups_requires_auth (lookupCredentials : String → Option Credentials)
    (st : CacheState) :
    (st.defaultSubscription = none →
      fetchGroups lookupCredentials st =
        (st, Except.error (Err.uiError "Not logged in, use \"az login\" to do so."))) ∧
    (∀ sub, st.defaultSubscription = some sub →
      (lookupCredentials sub.tenantId = none →
        fetchGroups lookupCredentials st =
          (st, Except.error (Err.uiError "Not logged in, use \"az login\" to do so."))) ∧
      (∀ credentials, lookupCredentials sub.tenantId = some credentials →
        fetchGroups lookupCredentials st =
          ((updateGroups credentials st sub).1,
            Except.ok (updateGroups credentials st sub).2))) := by
  refine ⟨?_, ?_⟩
  · intro hd
    exact fetchGroups_noDefault lookupCredentials st hd
  · intro sub hd
    refine ⟨?_, ?_⟩
    · intro hc
      exact fetchGroups_noCredentials lookupCredentials st sub hd hc
    · intro credentials hc
      exact fetchGroups_delegates lookupCredentials st sub credentials hd hc

theorem fetchGroups_requires_auth_witness :
    fetchGroups (fun _ => none) initialState =
      (initialState,
        Except.error (Err.uiError "Not logged in, use \"az login\" to do so.")) :=
  (fetchGroups_requires_auth (fun _ => none) initialState).1 rfl

/-- C8: a subscription-change notification whose computed default has the
same identifier as the stored one (including both absent) leaves the whole
state unchanged — no refresh, no map mutation; the stored default is
replaced exactly when the identifier differs. -/
theorem redundant_notification_noop (subscriptions : List Subscription)
    (lookupCredentials : String → Option Credentials) (st : CacheState) :
    ((subscriptions.find? (fun s => s.isDefault)).map Subscription.id =
        st.defaultSubscription.map Subscription.id →
      onSubscriptionUpdated subscriptions lookupCredentials st = st) ∧
    ((subscriptions.find? (fun s => s.isDefault)).map Subscription.id ≠
        st.defaultSubscription.map Subscription.id →
      (onSubscriptionUpdated subscriptions lookupCredentials st).defaultSubscription =
        subscriptions.find? (fun s => s.isDefault)) := by
  refine ⟨?_, ?_⟩
  · intro heq
    unfold onSubscriptionUpdated
    rw [if_neg (fun hne => hne heq.symm)]
  · intro hne
    unfold onSubscriptionUpdated
    rw [if_pos (fun heq => hne heq.symm)]
    cases subscriptions.find? (fun s => s.isDefault) with
    | none => rfl
    | some ds =>
      dsimp only
      cases lookupCredentials ds.tenantId with
      | none => rfl
      | some credentials =>
        exact updateGroups_fst_defaultSubscription credentials
          { st with defaultSubscription := some ds } ds

theorem redundant_notification_noop_witness :
    onSubscriptionUpdated [demoSubscription] (fun _ => none)
      { initialState with defaultSubscription := some demoSubscription } =
      { initialState with defaultSubscription := some demoSubscription } :=
  (redundant_notification_noop [demoSubscription] (fun _ => none)
    { initialState with defaultSubscription := some demoSubscription }).1 rfl

/-- C9: a notification whose default subscription has the same id as the
stored default but a different tenant id leaves the stored default in place,
so a later `fetchGroups` resolves credentials with the old subscription's
tenant id (and delegates with the old subscription), not the updated one. -/
theorem same_id_keeps_stale_tenant (subscriptions : List Subscription)
    (lookupCredentials lc2 : String → Option Credentials) (st : CacheState)
    (oldSub newSub : Subscription)
    (hst : st.defaultSubscription = some oldSub)
    (hfind : subscriptions.find? (fun s => s.isDefault) = some newSub)
    (hid : newSub.id = oldSub.id) (_hten : newSub.tenantId ≠ oldSub.tenantId) :
    onSubscriptionUpdated subscriptions lookupCredentials st = st ∧
    (lc2 oldSub.tenantId = none →
      fetchGroups lc2 (onSubscriptionUpdated subscriptions lookupCredentials st) =
        (st, Except.error (Err.uiError "Not logged in, use \"az login\" to do so."))) ∧
    (∀ credentials, lc2 oldSub.tenantId = some credentials →
      fetchGroups lc2 (onSubscriptionUpdated subscriptions lookupCredentials st) =
        ((updateGroups credentials st oldSub).1,
          Except.ok (updateGroups credentials st oldSub).2)) := by
  have hnoop : onSubscriptionUpdated subscriptions lookupCredentials st = st := by
    unfold onSubscriptionUpdated
    rw [if_neg]
    intro hne
    apply hne
    rw [hst, hfind]
    simp [hid]
  refine ⟨hnoop, ?_, ?_⟩
  · intro hc
    rw [hnoop]
    exact fetchGroups_noCredentials lc2 st oldSub hst hc
  · intro credentials hc
    rw [hnoop]
    exact fetchGroups_delegates lc2 st oldSub credentials hst hc

theorem same_id_keeps_stale_tenant_witness :
    onSubscriptionUpdated [⟨"s1", "t2", true⟩] (fun _ => none)
      { initialState with defaultSubscription := some demoSubscription } =
      { initialState with defaultSubscription := some demoSubscription } :=
  (same_id_keeps_stale_tenant [⟨"s1", "t2", true⟩] (fun _ => none) (fun _ => none)
    { initialState with defaultSubscription := some demoSubscription }
    demoSubscription ⟨"s1", "t2", true⟩ rfl rfl rfl (by decide)).1

/-- C10: in every reachable state, each entry of the `CachedResult` map
refers to a fulfilled promise (results are stored only by the success
handler), and consequently a call that finds a cached entry can never reject,
whatever order the timer and the refresh settle in. -/
theorem cached_results_always_fulfilled (st : CacheState) (h : Reachable st) :
    (∀ id p, lookupKey st.current id = some p →
      ∃ v, promiseValue st.promises p = PromiseState.fulfilled v) ∧
    (∀ credentials subscription c, lookupKey st.current subscription.id = some c →
      ∀ ro e, resolveReturn (updateGroups credentials st subscription).1.promises
        (updateGroups credentials st subscription).2 ro ≠
        some (Except.error e)) := by
  obtain ⟨hcur, -, -, -⟩ := inv_reachable st h
  refine ⟨hcur, ?_⟩
  intro credentials subscription c hc ro e
  obtain ⟨v, hv⟩ := hcur subscription.id c hc
  obtain ⟨u, hr⟩ := updateGroups_ret_of_current credentials st subscription c hc
  have hv2 := promiseValue_fulfilled_updateGroups credentials st subscription c v hv
  rw [hr]
  exact (resolveReturn_race_fulfilled
    (updateGroups credentials st subscription).1.promises u c v hv2).2.2.2 ro e

theorem cached_results_always_fulfilled_witness :
    resolveReturn (updateGroups demoCredentials demoState2 demoSubscription).1.promises
      (updateGroups demoCredentials demoState2 demoSubscription).2
      RaceOutcome.timerFired ≠ some (Except.error (Err.remoteError "boom")) :=
  (cached_results_always_fulfilled demoState2 demoState2_reachable).2
    demoCredentials demoSubscription 0 rfl RaceOutcome.timerFired
    (Err.remoteError "boom")

end GroupCache
